import Mathlib

/-!
Verification of `AggregationEfficiency.h` (Wasatch PBE precipitation expressions).

The kernel computes, for each ordered pair `(i, j)` of size-class abscissae, a
pointwise aggregation efficiency `x / (1 + x)` where the candidate `x` is a
guarded quotient selected by the growth-model string.  All field operations in
the source (`cond`, `<<=`, `+`, `*`, `/`) are pointwise over the spatial field,
so the embedding models the value at one spatial point with exact rational
arithmetic; the `N²` result fields become a flat list built in the same
row-major `i`-outer / `j`-inner order as the `idx++` loop in `evaluate()`.
-/

namespace AggregationEfficiency

/-- First `cond` assignment of the `BULK_DIFFUSION` branch (the `MONOSURFACE`
branch repeats the identical text): if `rho > 0 && eps > 0`, pick the divisor
radius by `cond(ri > rj, …ri…)(…rj…)`, otherwise `0`. -/
def candidateBulk (l g0 eps rho ri rj : ℚ) : ℚ :=
  if 0 < rho ∧ 0 < eps then
    if rj < ri then l * g0 / (ri * rho * (ri + rj) * (ri + rj) * eps)
    else l * g0 / (rj * rho * (ri + rj) * (ri + rj) * eps)
  else 0

/-- First `cond` assignment of the `CONSTANT` / `KINETIC` branch. -/
def candidateKinetic (l g0 eps rho ri rj : ℚ) : ℚ :=
  if 0 < rho ∧ 0 < eps then l * g0 / (rho * (ri + rj) * (ri + rj) * eps)
  else 0

/-- Second `cond` assignment: `*tmp <<= cond( *tmp > 0.0, *tmp)(0.0)`. -/
def clampPos (x : ℚ) : ℚ := if 0 < x then x else 0

/-- Final write: `*results[idx++] <<= *tmp/(1.0 + *tmp)`. -/
def saturate (x : ℚ) : ℚ := x / (1 + x)

/-- Pointwise value written for pair `(i, j)` under `BULK_DIFFUSION` or
`MONOSURFACE`, with `ri`, `rj` the two abscissa values at the point. -/
def effBulk (l g0 eps rho ri rj : ℚ) : ℚ :=
  saturate (clampPos (candidateBulk l g0 eps rho ri rj))

/-- Pointwise value written for pair `(i, j)` under `CONSTANT` or `KINETIC`. -/
def effKinetic (l g0 eps rho ri rj : ℚ) : ℚ :=
  saturate (clampPos (candidateKinetic l g0 eps rho ri rj))

/-- The doubly-nested result loop: outer index `i`, inner index `j`, one value
pushed per iteration, so the flattened order is row-major with
`idx = i * n + j`. -/
def pairGrid (n : ℕ) (f : ℕ → ℕ → ℚ) : List ℚ :=
  ((List.range n).map fun i => (List.range n).map fun j => f i j).flatten

/-- The body of `evaluate()` at one spatial point.  `abscissae` holds the bound
size-class values, `results` the previous contents of the result fields; the
three recognized-model branches overwrite all `n²` results in loop order, and
any other `growthModel` string falls through every `else if` and leaves the
results untouched. -/
def evaluatePoint (growthModel : String) (l : ℚ) (abscissae : List ℚ)
    (g0 eps rho : ℚ) (results : List ℚ) : List ℚ :=
  let n := abscissae.length
  if growthModel = "BULK_DIFFUSION" then
    pairGrid n fun i j => effBulk l g0 eps rho (abscissae.getD i 0) (abscissae.getD j 0)
  else if growthModel = "MONOSURFACE" then
    pairGrid n fun i j => effBulk l g0 eps rho (abscissae.getD i 0) (abscissae.getD j 0)
  else if growthModel = "CONSTANT" ∨ growthModel = "KINETIC" then
    pairGrid n fun i j => effKinetic l g0 eps rho (abscissae.getD i 0) (abscissae.getD j 0)
  else results

/-- The divisor of the candidate-value division in the `BULK_DIFFUSION` /
`MONOSURFACE` branches: `cond(ri > rj, ri…, rj…)` makes it
`(ri > rj ? ri : rj) * rho * (ri+rj) * (ri+rj) * eps`. -/
def divisorBulk (rho eps ri rj : ℚ) : ℚ :=
  (if rj < ri then ri else rj) * rho * (ri + rj) * (ri + rj) * eps

/-- The divisor of the candidate-value division in the `CONSTANT` / `KINETIC`
branch. -/
def divisorKinetic (rho eps ri rj : ℚ) : ℚ :=
  rho * (ri + rj) * (ri + rj) * eps

/-- Division with the double-precision error path made explicit: the source
divides IEEE doubles, so a zero divisor produces `±inf` — which the clamp
keeps and the downstream `x/(1+x)` turns into `inf/inf = NaN` — rather than
the `0` that total rational division would give.  `none` marks that
non-finite outcome; a nonzero divisor gives the exact quotient. -/
def divChecked (a b : ℚ) : Option ℚ := if b = 0 then none else some (a / b)

/-- `candidateBulk` with the zero-divisor path of the double division kept
visible instead of totalized away. -/
def candidateBulkChecked (l g0 eps rho ri rj : ℚ) : Option ℚ :=
  if 0 < rho ∧ 0 < eps then
    if rj < ri then divChecked (l * g0) (ri * rho * (ri + rj) * (ri + rj) * eps)
    else divChecked (l * g0) (rj * rho * (ri + rj) * (ri + rj) * eps)
  else some 0

/-- `candidateKinetic` with the zero-divisor path of the double division kept
visible instead of totalized away. -/
def candidateKineticChecked (l g0 eps rho ri rj : ℚ) : Option ℚ :=
  if 0 < rho ∧ 0 < eps then
    divChecked (l * g0) (rho * (ri + rj) * (ri + rj) * eps)
  else some 0

/-- Checked pointwise value for `BULK_DIFFUSION` / `MONOSURFACE`: once the
candidate is a finite value the clamp and saturation never divide by zero
(`1 + clampPos x ≥ 1`), so only the candidate's division can fail. -/
def effBulkChecked (l g0 eps rho ri rj : ℚ) : Option ℚ :=
  (candidateBulkChecked l g0 eps rho ri rj).map fun x => saturate (clampPos x)

/-- Checked pointwise value for `CONSTANT` / `KINETIC`. -/
def effKineticChecked (l g0 eps rho ri rj : ℚ) : Option ℚ :=
  (candidateKineticChecked l g0 eps rho ri rj).map fun x => saturate (clampPos x)

/-- The per-pair value `evaluate()` writes once the model string is known:
`BULK_DIFFUSION` and `MONOSURFACE` share the text of their loop bodies, the
other two recognized strings share the symmetric formula. -/
def modelEff (growthModel : String) (l g0 eps rho ri rj : ℚ) : ℚ :=
  if growthModel = "BULK_DIFFUSION" ∨ growthModel = "MONOSURFACE" then
    effBulk l g0 eps rho ri rj
  else
    effKinetic l g0 eps rho ri rj

/-- Recognized growth-model strings: the ones `evaluate()` dispatches on. -/
def recognizedModel (growthModel : String) : Prop :=
  growthModel = "BULK_DIFFUSION" ∨ growthModel = "MONOSURFACE" ∨
  growthModel = "CONSTANT" ∨ growthModel = "KINETIC"

/-- Configuration and bound-field state of the expression object.  `Tag` and
`FieldT` stay abstract: the claims about `bind_fields` concern only the shape
of the stored handle list. -/
structure AggState (Tag FieldT : Type) where
  abscissaeTagList_ : List Tag
  growthCoefTag_ : Tag
  dissipationTag_ : Tag
  densityTag_ : Tag
  l_ : ℚ
  growthModel_ : String
  abscissae_ : List FieldT
  g0_ : Option FieldT
  eps_ : Option FieldT
  rho_ : Option FieldT

/-- `bind_fields`: `abscissae_.clear()` (the `[]` start of the fold), then one
`push_back(&volfm.field_ref(*iabscissa))` per tag in tag order, then the three
scalar handles.  `fml` plays the field manager's `field_ref`. -/
def bind_fields {Tag FieldT : Type} (fml : Tag → FieldT)
    (s : AggState Tag FieldT) : AggState Tag FieldT :=
  { s with
    abscissae_ := s.abscissaeTagList_.foldl (fun acc tag => acc ++ [fml tag]) []
    g0_ := some (fml s.growthCoefTag_)
    eps_ := some (fml s.dissipationTag_)
    rho_ := some (fml s.densityTag_) }

/-! ### Helper lemmas -/

theorem clampPos_nonneg (x : ℚ) : 0 ≤ clampPos x := by
  unfold clampPos
  split
  · linarith
  · exact le_refl 0

theorem clampPos_of_nonpos {x : ℚ} (hx : x ≤ 0) : clampPos x = 0 := by
  unfold clampPos
  split <;> [linarith; rfl]

theorem clampPos_of_nonneg {x : ℚ} (hx : 0 ≤ x) : clampPos x = x := by
  unfold clampPos
  split
  · rfl
  · linarith

theorem saturate_zero : saturate 0 = 0 := by
  simp [saturate]

theorem saturate_bounds {x : ℚ} (hx : 0 ≤ x) : 0 ≤ saturate x ∧ saturate x < 1 := by
  have h1 : (0 : ℚ) < 1 + x := by linarith
  constructor
  · exact div_nonneg hx h1.le
  · rw [saturate, div_lt_one h1]
    linarith

theorem saturate_strictMono {a b : ℚ} (ha : 0 ≤ a) (hab : a < b) :
    saturate a < saturate b := by
  have h1 : (0 : ℚ) < 1 + a := by linarith
  have h2 : (0 : ℚ) < 1 + b := by linarith
  rw [saturate, saturate, div_lt_div_iff₀ h1 h2]
  nlinarith

theorem effBulk_bounds (l g0 eps rho ri rj : ℚ) :
    0 ≤ effBulk l g0 eps rho ri rj ∧ effBulk l g0 eps rho ri rj < 1 :=
  saturate_bounds (clampPos_nonneg _)

theorem effKinetic_bounds (l g0 eps rho ri rj : ℚ) :
    0 ≤ effKinetic l g0 eps rho ri rj ∧ effKinetic l g0 eps rho ri rj < 1 :=
  saturate_bounds (clampPos_nonneg _)

theorem candidateBulk_eq_div (l g0 eps rho ri rj : ℚ) (hrho : 0 < rho)
    (heps : 0 < eps) :
    candidateBulk l g0 eps rho ri rj = l * g0 / divisorBulk rho eps ri rj := by
  rw [candidateBulk, if_pos ⟨hrho, heps⟩, divisorBulk]
  split <;> rfl

theorem candidateKinetic_eq_div (l g0 eps rho ri rj : ℚ) (hrho : 0 < rho)
    (heps : 0 < eps) :
    candidateKinetic l g0 eps rho ri rj = l * g0 / divisorKinetic rho eps ri rj := by
  rw [candidateKinetic, if_pos ⟨hrho, heps⟩, divisorKinetic]

theorem divisorBulk_eq_max (rho eps ri rj : ℚ) :
    divisorBulk rho eps ri rj = max ri rj * rho * (ri + rj) ^ 2 * eps := by
  rw [divisorBulk]
  rcases le_or_lt ri rj with h | h
  · rw [if_neg (not_lt.mpr h), max_eq_right h]
    ring
  · rw [if_pos h, max_eq_left h.le]
    ring

theorem candidateBulk_symm (l g0 eps rho ri rj : ℚ) :
    candidateBulk l g0 eps rho ri rj = candidateBulk l g0 eps rho rj ri := by
  rcases Classical.em (0 < rho ∧ 0 < eps) with h | h
  · rw [candidateBulk_eq_div _ _ _ _ _ _ h.1 h.2,
      candidateBulk_eq_div _ _ _ _ _ _ h.1 h.2, divisorBulk_eq_max,
      divisorBulk_eq_max, max_comm]
    ring_nf
  · rw [candidateBulk, if_neg h, candidateBulk, if_neg h]

theorem candidateKinetic_symm (l g0 eps rho ri rj : ℚ) :
    candidateKinetic l g0 eps rho ri rj = candidateKinetic l g0 eps rho rj ri := by
  unfold candidateKinetic
  split
  · ring_nf
  · rfl

theorem effBulk_symm (l g0 eps rho ri rj : ℚ) :
    effBulk l g0 eps rho ri rj = effBulk l g0 eps rho rj ri := by
  rw [effBulk, effBulk, candidateBulk_symm]

theorem effKinetic_symm (l g0 eps rho ri rj : ℚ) :
    effKinetic l g0 eps rho ri rj = effKinetic l g0 eps rho rj ri := by
  rw [effKinetic, effKinetic, candidateKinetic_symm]

theorem mem_pairGrid {n : ℕ} {f : ℕ → ℕ → ℚ} {v : ℚ} (hv : v ∈ pairGrid n f) :
    ∃ i j, i < n ∧ j < n ∧ v = f i j := by
  simp only [pairGrid, List.mem_flatten, List.mem_map] at hv
  obtain ⟨row, ⟨⟨i, hi, hrow⟩, hv⟩⟩ := hv
  subst hrow
  obtain ⟨j, hj, hfv⟩ := List.mem_map.mp hv
  exact ⟨i, j, List.mem_range.mp hi, List.mem_range.mp hj, hfv.symm⟩

theorem pairGrid_length (n : ℕ) (f : ℕ → ℕ → ℚ) :
    (pairGrid n f).length = n * n := by
  simp [pairGrid, List.length_flatten, Function.comp_def, List.map_const',
    List.sum_replicate, smul_eq_mul]

theorem flatten_getD {α : Type} (d : α) :
    ∀ (L : List (List α)) (n i j : ℕ), (∀ l ∈ L, l.length = n) →
      i < L.length → j < n →
      L.flatten.getD (i * n + j) d = (L.getD i []).getD j d := by
  intro L
  induction L with
  | nil => intro n i j _ hi _; exact absurd hi (Nat.not_lt_zero i)
  | cons hd tl ih =>
    intro n i j hlen hi hj
    have hhd : hd.length = n := hlen hd (List.mem_cons_self hd tl)
    cases i with
    | zero =>
      rw [Nat.zero_mul, Nat.zero_add, List.flatten_cons,
        List.getD_append _ _ _ _ (by rw [hhd]; exact hj)]
      rfl
    | succ k =>
      have hidx : (k + 1) * n + j = hd.length + (k * n + j) := by
        rw [hhd]; ring
      rw [List.flatten_cons, hidx,
        List.getD_append_right _ _ _ _ (Nat.le_add_right _ _),
        Nat.add_sub_cancel_left]
      exact ih n k j (fun l hl => hlen l (List.mem_cons_of_mem hd hl))
        (Nat.lt_of_succ_lt_succ hi) hj

theorem pairGrid_getD {n i j : ℕ} (f : ℕ → ℕ → ℚ) (hi : i < n) (hj : j < n) :
    (pairGrid n f).getD (i * n + j) 0 = f i j := by
  rw [pairGrid, flatten_getD 0 _ n i j
      (by intro l hl
          obtain ⟨a, _, ha⟩ := List.mem_map.mp hl
          rw [← ha, List.length_map, List.length_range])
      (by rwa [List.length_map, List.length_range]) hj]
  have hrow : ((List.range n).map fun i => (List.range n).map fun j => f i j).getD i []
      = (List.range n).map fun j => f i j := by
    rw [List.getD_eq_getElem _ _ (by rwa [List.length_map, List.length_range]),
      List.getElem_map, List.getElem_range]
  rw [hrow, List.getD_eq_getElem _ _ (by rwa [List.length_map, List.length_range]),
    List.getElem_map, List.getElem_range]

theorem evaluatePoint_recognized (growthModel : String) (l : ℚ)
    (abscissae : List ℚ) (g0 eps rho : ℚ) (results : List ℚ)
    (h : recognizedModel growthModel) :
    evaluatePoint growthModel l abscissae g0 eps rho results =
      pairGrid abscissae.length fun i j =>
        modelEff growthModel l g0 eps rho (abscissae.getD i 0) (abscissae.getD j 0) := by
  rcases h with h | h | h | h <;> subst h <;> simp [evaluatePoint, modelEff]

theorem foldl_push_eq_map {α β : Type} (f : α → β) :
    ∀ (l : List α) (acc : List β),
      l.foldl (fun acc a => acc ++ [f a]) acc = acc ++ l.map f := by
  intro l
  induction l with
  | nil => intro acc; simp
  | cons hd tl ih => intro acc; simp [ih]

theorem modelEff_bulk {growthModel : String}
    (h : growthModel = "BULK_DIFFUSION" ∨ growthModel = "MONOSURFACE")
    (l g0 eps rho ri rj : ℚ) :
    modelEff growthModel l g0 eps rho ri rj = effBulk l g0 eps rho ri rj := by
  rw [modelEff, if_pos h]

theorem modelEff_kinetic {growthModel : String}
    (h : ¬(growthModel = "BULK_DIFFUSION" ∨ growthModel = "MONOSURFACE"))
    (l g0 eps rho ri rj : ℚ) :
    modelEff growthModel l g0 eps rho ri rj = effKinetic l g0 eps rho ri rj := by
  rw [modelEff, if_neg h]

theorem evaluatePoint_getD (growthModel : String) (l : ℚ) (abscissae : List ℚ)
    (g0 eps rho : ℚ) (results : List ℚ) (h : recognizedModel growthModel)
    {i j : ℕ} (hi : i < abscissae.length) (hj : j < abscissae.length) :
    (evaluatePoint growthModel l abscissae g0 eps rho results).getD
        (i * abscissae.length + j) 0 =
      modelEff growthModel l g0 eps rho (abscissae.getD i 0) (abscissae.getD j 0) := by
  rw [evaluatePoint_recognized _ _ _ _ _ _ _ h, pairGrid_getD _ hi hj]

theorem candidate_guard_false {rho eps : ℚ} (l g0 ri rj : ℚ)
    (h : ¬(0 < rho ∧ 0 < eps)) :
    candidateBulk l g0 eps rho ri rj = 0 ∧ candidateKinetic l g0 eps rho ri rj = 0 := by
  rw [candidateBulk, if_neg h, candidateKinetic, if_neg h]
  exact ⟨rfl, rfl⟩

theorem candidateBulkChecked_eq (l g0 eps rho ri rj : ℚ)
    (h : divisorBulk rho eps ri rj ≠ 0) :
    candidateBulkChecked l g0 eps rho ri rj =
      some (candidateBulk l g0 eps rho ri rj) := by
  rw [divisorBulk] at h
  rw [candidateBulkChecked, candidateBulk]
  by_cases hg : 0 < rho ∧ 0 < eps
  · rw [if_pos hg, if_pos hg]
    by_cases hb : rj < ri
    · rw [if_pos hb, if_pos hb, divChecked,
        if_neg (by rw [if_pos hb] at h; exact h)]
    · rw [if_neg hb, if_neg hb, divChecked,
        if_neg (by rw [if_neg hb] at h; exact h)]
  · rw [if_neg hg, if_neg hg]

theorem candidateKineticChecked_eq (l g0 eps rho ri rj : ℚ)
    (h : divisorKinetic rho eps ri rj ≠ 0) :
    candidateKineticChecked l g0 eps rho ri rj =
      some (candidateKinetic l g0 eps rho ri rj) := by
  rw [divisorKinetic] at h
  rw [candidateKineticChecked, candidateKinetic]
  by_cases hg : 0 < rho ∧ 0 < eps
  · rw [if_pos hg, if_pos hg, divChecked, if_neg h]
  · rw [if_neg hg, if_neg hg]

theorem effChecked_bounds {l g0 eps rho ri rj : ℚ} :
    (∀ v, effBulkChecked l g0 eps rho ri rj = some v → 0 ≤ v ∧ v < 1) ∧
    (∀ v, effKineticChecked l g0 eps rho ri rj = some v → 0 ≤ v ∧ v < 1) := by
  constructor
  · intro v hv
    rw [effBulkChecked] at hv
    rcases Option.map_eq_some'.mp hv with ⟨x, _, rfl⟩
    exact saturate_bounds (clampPos_nonneg x)
  · intro v hv
    rw [effKineticChecked] at hv
    rcases Option.map_eq_some'.mp hv with ⟨x, _, rfl⟩
    exact saturate_bounds (clampPos_nonneg x)

/-! ### Claims -/

/-- C1 (code bug): at a point with `density = dissipation = 1 > 0` and both
radii `0` — inputs the claim quantifies over — the guard of every recognized
branch holds while the candidate divisor is `0`, so the source's double
division computes `1.0/0.0 = +inf`, the clamp keeps it (`inf > 0`), and
`evaluate()` writes `inf/(1+inf) = NaN`: neither finite nor in `[0, 1)`.
In the checked model the written value is `none`; whenever the divisor is
nonzero the checked and total models agree (`candidateBulkChecked_eq`,
`candidateKineticChecked_eq`) and every finite value produced does lie in
`[0, 1)` (`effChecked_bounds`). -/
theorem c1_nan_at_zero_radii :
    (0 : ℚ) < 1 ∧ (0 : ℚ) + 0 = 0 ∧
    divisorBulk 1 1 0 0 = 0 ∧ divisorKinetic 1 1 0 0 = 0 ∧
    effBulkChecked 1 1 1 1 0 0 = none ∧
    effKineticChecked 1 1 1 1 0 0 = none := by
  norm_num [divisorBulk, divisorKinetic, effBulkChecked, effKineticChecked,
    candidateBulkChecked, candidateKineticChecked, divChecked]

/-- C2: the guard of the candidate formula tests only `density > 0` and
`dissipation > 0`; with `rho = eps = 1 > 0` and `ri = rj = 0` (so
`ri + rj = 0`) the divisor of the candidate division is `0` in every branch,
and a nonzero divisor forces `ri + rj ≠ 0` (and `max ri rj ≠ 0` for the
bulk-diffusion/monosurface divisor). -/
theorem c2_divisor_unguarded :
    ((0 : ℚ) < 1 ∧ (0 : ℚ) + 0 = 0 ∧ divisorBulk 1 1 0 0 = 0 ∧
      divisorKinetic 1 1 0 0 = 0) ∧
    (∀ rho eps ri rj : ℚ, divisorBulk rho eps ri rj ≠ 0 →
      ri + rj ≠ 0 ∧ max ri rj ≠ 0) ∧
    (∀ rho eps ri rj : ℚ, divisorKinetic rho eps ri rj ≠ 0 → ri + rj ≠ 0) ∧
    (∀ l g0 eps rho ri rj : ℚ, 0 < rho → 0 < eps →
      candidateBulk l g0 eps rho ri rj = l * g0 / divisorBulk rho eps ri rj ∧
      candidateKinetic l g0 eps rho ri rj = l * g0 / divisorKinetic rho eps ri rj) := by
  refine ⟨⟨by norm_num, by norm_num, by norm_num [divisorBulk],
      by norm_num [divisorKinetic]⟩, ?_, ?_, ?_⟩
  · intro rho eps ri rj h
    constructor
    · intro h0
      exact h (by rw [divisorBulk_eq_max, h0]; ring)
    · intro h0
      exact h (by rw [divisorBulk_eq_max, h0]; ring)
  · intro rho eps ri rj h h0
    exact h (by rw [divisorKinetic, h0]; ring)
  · intro l g0 eps rho ri rj hrho heps
    exact ⟨candidateBulk_eq_div l g0 eps rho ri rj hrho heps,
      candidateKinetic_eq_div l g0 eps rho ri rj hrho heps⟩

/-- Witness for C2's conditional parts at concrete inputs. -/
theorem c2_divisor_unguarded_witness :
    ((1 : ℚ) + 1 ≠ 0 ∧ max (1 : ℚ) 1 ≠ 0) ∧ ((1 : ℚ) + 2 ≠ 0) ∧
    (candidateBulk 1 1 1 1 1 1 = 1 * 1 / divisorBulk 1 1 1 1 ∧
      candidateKinetic 1 1 1 1 1 1 = 1 * 1 / divisorKinetic 1 1 1 1) :=
  ⟨c2_divisor_unguarded.2.1 1 1 1 1 (by norm_num [divisorBulk]),
    c2_divisor_unguarded.2.2.1 1 1 1 2 (by norm_num [divisorKinetic]),
    c2_divisor_unguarded.2.2.2 1 1 1 1 1 1 (by norm_num) (by norm_num)⟩

/-- C3: for every recognized model kind and every pair, at a point where
`density ≤ 0` or `dissipation ≤ 0` the value written by `evaluate()` is
exactly `0`. -/
theorem c3_degenerate_inputs_give_zero (growthModel : String) (l : ℚ)
    (abscissae : List ℚ) (g0 eps rho : ℚ) (results : List ℚ)
    (h : recognizedModel growthModel) (hdeg : rho ≤ 0 ∨ eps ≤ 0) :
    ∀ v ∈ evaluatePoint growthModel l abscissae g0 eps rho results, v = 0 := by
  intro v hv
  rw [evaluatePoint_recognized _ _ _ _ _ _ _ h] at hv
  obtain ⟨i, j, _, _, rfl⟩ := mem_pairGrid hv
  have hguard : ¬(0 < rho ∧ 0 < eps) := by
    rcases hdeg with h0 | h0 <;> rintro ⟨h1, h2⟩ <;> linarith
  rw [modelEff]
  split
  · rw [effBulk, (candidate_guard_false l g0 _ _ hguard).1,
      clampPos_of_nonpos le_rfl, saturate_zero]
  · rw [effKinetic, (candidate_guard_false l g0 _ _ hguard).2,
      clampPos_of_nonpos le_rfl, saturate_zero]

/-- Witness for C3 with zero density under `KINETIC`. -/
theorem c3_degenerate_inputs_give_zero_witness : effKinetic 1 2 1 0 1 1 = 0 :=
  c3_degenerate_inputs_give_zero "KINETIC" 1 [1] 2 1 0 []
    (Or.inr (Or.inr (Or.inr rfl))) (Or.inl le_rfl) _
    (by simp [evaluatePoint, pairGrid, modelEff])

/-- C4: for `BULK_DIFFUSION` / `MONOSURFACE` the candidate divides by the
larger radius — `x = l·g0 / (max ri rj · rho · (ri+rj)² · eps)` when the guard
holds — and consequently the written output is symmetric: the entry for pair
`(i, j)` equals the entry for pair `(j, i)`. -/
theorem c4_bulk_uses_max_radius_and_is_symmetric :
    (∀ l g0 eps rho ri rj : ℚ, 0 < rho → 0 < eps →
      candidateBulk l g0 eps rho ri rj =
        l * g0 / (max ri rj * rho * (ri + rj) ^ 2 * eps)) ∧
    (∀ l g0 eps rho ri rj : ℚ,
      effBulk l g0 eps rho ri rj = effBulk l g0 eps rho rj ri) ∧
    (∀ (growthModel : String) (l : ℚ) (abscissae : List ℚ) (g0 eps rho : ℚ)
      (results : List ℚ) (i j : ℕ),
      (growthModel = "BULK_DIFFUSION" ∨ growthModel = "MONOSURFACE") →
      i < abscissae.length → j < abscissae.length →
      (evaluatePoint growthModel l abscissae g0 eps rho results).getD
          (i * abscissae.length + j) 0 =
        (evaluatePoint growthModel l abscissae g0 eps rho results).getD
          (j * abscissae.length + i) 0) := by
  refine ⟨?_, effBulk_symm, ?_⟩
  · intro l g0 eps rho ri rj hrho heps
    rw [candidateBulk_eq_div l g0 eps rho ri rj hrho heps, divisorBulk_eq_max]
  · intro growthModel l abscissae g0 eps rho results i j h hi hj
    have hrec : recognizedModel growthModel := by
      rcases h with h | h
      · exact Or.inl h
      · exact Or.inr (Or.inl h)
    rw [evaluatePoint_getD _ _ _ _ _ _ _ hrec hi hj,
      evaluatePoint_getD _ _ _ _ _ _ _ hrec hj hi,
      modelEff_bulk h, modelEff_bulk h, effBulk_symm]

/-- Witness for C4 at a concrete input, matching spec scenario 3. -/
theorem c4_bulk_uses_max_radius_and_is_symmetric_witness :
    candidateBulk 1 4 1 1 1 3 = 1 * 4 / (max (1 : ℚ) 3 * 1 * (1 + 3) ^ 2 * 1) ∧
    effBulk 1 4 1 1 1 3 = effBulk 1 4 1 1 3 1 ∧
    (evaluatePoint "BULK_DIFFUSION" 1 [1, 3] 4 1 1 []).getD 1 0 =
      (evaluatePoint "BULK_DIFFUSION" 1 [1, 3] 4 1 1 []).getD 2 0 :=
  ⟨c4_bulk_uses_max_radius_and_is_symmetric.1 1 4 1 1 1 3 (by norm_num)
      (by norm_num),
    c4_bulk_uses_max_radius_and_is_symmetric.2.1 1 4 1 1 1 3,
    c4_bulk_uses_max_radius_and_is_symmetric.2.2 "BULK_DIFFUSION" 1 [1, 3] 4 1 1
      [] 0 1 (Or.inl rfl) (by norm_num) (by norm_num)⟩

/-- C5: if the growth-model string is none of the four recognized values,
`evaluate()` performs no computation and leaves every result field unchanged. -/
theorem c5_unrecognized_model_is_noop (growthModel : String) (l : ℚ)
    (abscissae : List ℚ) (g0 eps rho : ℚ) (results : List ℚ)
    (h1 : growthModel ≠ "BULK_DIFFUSION") (h2 : growthModel ≠ "MONOSURFACE")
    (h3 : growthModel ≠ "CONSTANT") (h4 : growthModel ≠ "KINETIC") :
    evaluatePoint growthModel l abscissae g0 eps rho results = results := by
  simp [evaluatePoint, h1, h2, h3, h4]

/-- Witness for C5 with an unrecognized model string. -/
theorem c5_unrecognized_model_is_noop_witness :
    evaluatePoint "LINEAR" 1 [1] 1 1 1 [5] = [5] :=
  c5_unrecognized_model_is_noop "LINEAR" 1 [1] 1 1 1 [5] (by decide) (by decide)
    (by decide) (by decide)

theorem divisorBulk_pos {rho eps ri rj : ℚ} (hrho : 0 < rho) (heps : 0 < eps)
    (hri : 0 < ri) (hrj : 0 < rj) : 0 < divisorBulk rho eps ri rj := by
  rw [divisorBulk_eq_max]
  have hm : 0 < max ri rj := lt_of_lt_of_le hri (le_max_left ri rj)
  have hs : 0 < (ri + rj) ^ 2 := by positivity
  exact mul_pos (mul_pos (mul_pos hm hrho) hs) heps

theorem divisorKinetic_pos {rho eps ri rj : ℚ} (hrho : 0 < rho) (heps : 0 < eps)
    (hri : 0 < ri) (hrj : 0 < rj) : 0 < divisorKinetic rho eps ri rj := by
  have hs : 0 < ri + rj := by linarith
  exact mul_pos (mul_pos (mul_pos hrho hs) hs) heps

theorem saturate_clampPos_lt {x1 x2 : ℚ} (h1 : 0 ≤ x1) (h12 : x1 < x2) :
    saturate (clampPos x1) < saturate (clampPos x2) := by
  rw [clampPos_of_nonneg h1, clampPos_of_nonneg (le_trans h1 h12.le)]
  exact saturate_strictMono h1 h12

theorem div_pos_lt_of_num_lt {a b D : ℚ} (hD : 0 < D) (hab : a < b) :
    a / D < b / D := by
  rw [div_lt_div_iff₀ hD hD]
  exact mul_lt_mul_of_pos_right hab hD

/-- C6 counterexample: under `CONSTANT` (and likewise `BULK_DIFFUSION`) with
`l = rho = eps = ri = rj = 1`, raising the growth rate from `-2` to `-1`
leaves the efficiency at `0`: both candidates are negative and clamped, so the
output is not strictly increasing in the growth rate as stated. -/
theorem c6_growth_monotonicity_counterexample :
    (-2 : ℚ) < -1 ∧ (0 : ℚ) < 1 ∧
    ¬(effKinetic 1 (-2) 1 1 1 1 < effKinetic 1 (-1) 1 1 1 1) ∧
    ¬(effBulk 1 (-2) 1 1 1 1 < effBulk 1 (-1) 1 1 1 1) := by
  refine ⟨by norm_num, by norm_num, ?_, ?_⟩
  · have h2 : effKinetic 1 (-2) 1 1 1 1 = 0 := by
      norm_num [effKinetic, candidateKinetic, clampPos, saturate]
    have h1 : effKinetic 1 (-1) 1 1 1 1 = 0 := by
      norm_num [effKinetic, candidateKinetic, clampPos, saturate]
    rw [h1, h2]
    exact lt_irrefl 0
  · have h2 : effBulk 1 (-2) 1 1 1 1 = 0 := by
      norm_num [effBulk, candidateBulk, clampPos, saturate]
    have h1 : effBulk 1 (-1) 1 1 1 1 = 0 := by
      norm_num [effBulk, candidateBulk, clampPos, saturate]
    rw [h1, h2]
    exact lt_irrefl 0

/-- C6 (amended): for every recognized model kind, with `l > 0`, positive
radii, `density > 0`, `dissipation > 0` and growth rates `0 ≤ g1 < g2`, the
written efficiency is strictly increasing in the growth rate. -/
theorem c6_growth_monotonicity_amended (growthModel : String)
    (l g1 g2 eps rho ri rj : ℚ) (_hmodel : recognizedModel growthModel)
    (hl : 0 < l) (hrho : 0 < rho) (heps : 0 < eps) (hri : 0 < ri)
    (hrj : 0 < rj) (hg1 : 0 ≤ g1) (hg : g1 < g2) :
    modelEff growthModel l g1 eps rho ri rj <
      modelEff growthModel l g2 eps rho ri rj := by
  have hnum : l * g1 < l * g2 := mul_lt_mul_of_pos_left hg hl
  have hnum1 : 0 ≤ l * g1 := mul_nonneg hl.le hg1
  rw [modelEff, modelEff]
  split
  · have hD := divisorBulk_pos hrho heps hri hrj
    rw [effBulk, effBulk, candidateBulk_eq_div _ _ _ _ _ _ hrho heps,
      candidateBulk_eq_div _ _ _ _ _ _ hrho heps]
    exact saturate_clampPos_lt (div_nonneg hnum1 hD.le)
      (div_pos_lt_of_num_lt hD hnum)
  · have hD := divisorKinetic_pos hrho heps hri hrj
    rw [effKinetic, effKinetic, candidateKinetic_eq_div _ _ _ _ _ _ hrho heps,
      candidateKinetic_eq_div _ _ _ _ _ _ hrho heps]
    exact saturate_clampPos_lt (div_nonneg hnum1 hD.le)
      (div_pos_lt_of_num_lt hD hnum)

/-- Witness for the amended C6 at a concrete input. -/
theorem c6_growth_monotonicity_amended_witness :
    modelEff "CONSTANT" 1 1 1 1 1 1 < modelEff "CONSTANT" 1 2 1 1 1 1 :=
  c6_growth_monotonicity_amended "CONSTANT" 1 1 2 1 1 1 1
    (Or.inr (Or.inr (Or.inl rfl))) (by norm_num) (by norm_num) (by norm_num)
    (by norm_num) (by norm_num) (by norm_num) (by norm_num)

/-- C7: for `CONSTANT` / `KINETIC` the candidate is
`l·g0 / (rho · (ri+rj)² · eps)`, symmetric in the two radii, so the written
output for pair `(i, j)` equals the output for pair `(j, i)`. -/
theorem c7_kinetic_symmetric :
    (∀ l g0 eps rho ri rj : ℚ, 0 < rho → 0 < eps →
      candidateKinetic l g0 eps rho ri rj =
        l * g0 / (rho * (ri + rj) ^ 2 * eps)) ∧
    (∀ l g0 eps rho ri rj : ℚ,
      effKinetic l g0 eps rho ri rj = effKinetic l g0 eps rho rj ri) ∧
    (∀ (growthModel : String) (l : ℚ) (abscissae : List ℚ) (g0 eps rho : ℚ)
      (results : List ℚ) (i j : ℕ),
      (growthModel = "CONSTANT" ∨ growthModel = "KINETIC") →
      i < abscissae.length → j < abscissae.length →
      (evaluatePoint growthModel l abscissae g0 eps rho results).getD
          (i * abscissae.length + j) 0 =
        (evaluatePoint growthModel l abscissae g0 eps rho results).getD
          (j * abscissae.length + i) 0) := by
  refine ⟨?_, effKinetic_symm, ?_⟩
  · intro l g0 eps rho ri rj hrho heps
    rw [candidateKinetic_eq_div l g0 eps rho ri rj hrho heps, divisorKinetic]
    ring_nf
  · intro growthModel l abscissae g0 eps rho results i j h hi hj
    have hrec : recognizedModel growthModel := by
      rcases h with h | h
      · exact Or.inr (Or.inr (Or.inl h))
      · exact Or.inr (Or.inr (Or.inr h))
    have hnotbulk : ¬(growthModel = "BULK_DIFFUSION" ∨
        growthModel = "MONOSURFACE") := by
      rcases h with h | h <;> subst h <;> rintro (h0 | h0) <;> exact
        absurd h0 (by decide)
    rw [evaluatePoint_getD _ _ _ _ _ _ _ hrec hi hj,
      evaluatePoint_getD _ _ _ _ _ _ _ hrec hj hi,
      modelEff_kinetic hnotbulk, modelEff_kinetic hnotbulk, effKinetic_symm]

/-- Witness for C7 at a concrete input, matching spec scenario 2. -/
theorem c7_kinetic_symmetric_witness :
    candidateKinetic 1 2 1 1 1 1 = 1 * 2 / (1 * ((1 : ℚ) + 1) ^ 2 * 1) ∧
    effKinetic 1 2 1 1 1 2 = effKinetic 1 2 1 1 2 1 ∧
    (evaluatePoint "CONSTANT" 1 [1, 2] 2 1 1 []).getD 1 0 =
      (evaluatePoint "CONSTANT" 1 [1, 2] 2 1 1 []).getD 2 0 :=
  ⟨c7_kinetic_symmetric.1 1 2 1 1 1 1 (by norm_num) (by norm_num),
    c7_kinetic_symmetric.2.1 1 2 1 1 1 2,
    c7_kinetic_symmetric.2.2 "CONSTANT" 1 [1, 2] 2 1 1 [] 0 1 (Or.inl rfl)
      (by norm_num) (by norm_num)⟩

/-- C8: at a point where the guard `density > 0 && dissipation > 0` holds but
the raw candidate is negative (e.g. negative growth), the clamp stage zeroes
it, so the written efficiency is exactly `0` — for both formula families. -/
theorem c8_negative_candidate_clamped (l g0 eps rho ri rj : ℚ) :
    (candidateBulk l g0 eps rho ri rj < 0 → effBulk l g0 eps rho ri rj = 0) ∧
    (candidateKinetic l g0 eps rho ri rj < 0 →
      effKinetic l g0 eps rho ri rj = 0) := by
  constructor
  · intro h
    rw [effBulk, clampPos_of_nonpos h.le, saturate_zero]
  · intro h
    rw [effKinetic, clampPos_of_nonpos h.le, saturate_zero]

/-- Witness for C8: growth `-1`, unit density/dissipation/radii. -/
theorem c8_negative_candidate_clamped_witness :
    effBulk 1 (-1) 1 1 1 1 = 0 ∧ effKinetic 1 (-1) 1 1 1 1 = 0 :=
  ⟨(c8_negative_candidate_clamped 1 (-1) 1 1 1 1).1
      (by norm_num [candidateBulk]),
    (c8_negative_candidate_clamped 1 (-1) 1 1 1 1).2
      (by norm_num [candidateKinetic])⟩

/-- C9: for every recognized model kind, `evaluate()` writes exactly `N²`
outputs, and the value for ordered pair `(i, j)` sits at flattened index
`i*N + j` (outer loop `i`, inner loop `j`, index incremented once per pair). -/
theorem c9_row_major_layout (growthModel : String) (l : ℚ)
    (abscissae : List ℚ) (g0 eps rho : ℚ) (results : List ℚ)
    (h : recognizedModel growthModel) :
    (evaluatePoint growthModel l abscissae g0 eps rho results).length =
      abscissae.length * abscissae.length ∧
    ∀ i j : ℕ, i < abscissae.length → j < abscissae.length →
      (evaluatePoint growthModel l abscissae g0 eps rho results).getD
          (i * abscissae.length + j) 0 =
        modelEff growthModel l g0 eps rho (abscissae.getD i 0)
          (abscissae.getD j 0) := by
  rw [evaluatePoint_recognized _ _ _ _ _ _ _ h]
  exact ⟨pairGrid_length _ _, fun i j hi hj => pairGrid_getD _ hi hj⟩

/-- Witness for C9 with two abscissae under `KINETIC`. -/
theorem c9_row_major_layout_witness :
    (evaluatePoint "KINETIC" 1 [1, 2] 3 1 1 []).length = 2 * 2 ∧
    (evaluatePoint "KINETIC" 1 [1, 2] 3 1 1 []).getD 2 0 =
      modelEff "KINETIC" 1 3 1 1 2 1 :=
  ⟨(c9_row_major_layout "KINETIC" 1 [1, 2] 3 1 1 []
      (Or.inr (Or.inr (Or.inr rfl)))).1,
    (c9_row_major_layout "KINETIC" 1 [1, 2] 3 1 1 []
      (Or.inr (Or.inr (Or.inr rfl)))).2 1 0 (by norm_num) (by norm_num)⟩

/-- C10: `bind_fields` clears the stored abscissa handles before repopulating
them, so after any number of calls the stored list is exactly one resolved
handle per declared tag, in tag order, and its length — the `N` that
`evaluate()` reads as `abscissae_.size()` — equals the number of abscissa
tags fixed at construction. -/
theorem c10_bind_fields_rebuilds_abscissae {Tag FieldT : Type}
    (fml fml2 : Tag → FieldT) (s : AggState Tag FieldT) :
    (bind_fields fml s).abscissae_ = s.abscissaeTagList_.map fml ∧
    (bind_fields fml s).abscissaeTagList_ = s.abscissaeTagList_ ∧
    (bind_fields fml s).abscissae_.length = s.abscissaeTagList_.length ∧
    (bind_fields fml2 (bind_fields fml s)).abscissae_ =
      s.abscissaeTagList_.map fml2 := by
  have hmap : ∀ (t : AggState Tag FieldT) (g : Tag → FieldT),
      (bind_fields g t).abscissae_ = t.abscissaeTagList_.map g := by
    intro t g
    show t.abscissaeTagList_.foldl _ [] = _
    rw [foldl_push_eq_map, List.nil_append]
  refine ⟨hmap s fml, rfl, ?_, hmap _ fml2⟩
  rw [hmap s fml, List.length_map]

end AggregationEfficiency
